import Mathlib

/-!
Verification development for the PyGameMaker IDE (src/gamemaker_03.py).

The document model (sprites, backgrounds, object types, levels with placed
instances, and the selection state) and its mutation operations are embedded
shallowly: every definition below mirrors the corresponding Python method of
`GameMakerIDE` or of the data classes, with Qt widget calls (list widgets,
dialogs, message boxes, repaints) dropped because they do not touch the
document state.  Python `int` is embedded as `Int`, `None`-able index fields
as `Option Int`, raw image byte strings as `List Nat`.
-/

set_option maxHeartbeats 1000000

namespace GM

/-- RGBA color quadruple: the embedding of a `QColor` value.  The editor
constructs colors from, and serializes colors to, their four channels. -/
structure Color where
  r : Int
  g : Int
  b : Int
  a : Int
deriving Repr, DecidableEq

/-- Embedding of class `Sprite`: name, optional raw image bytes, format tag.
The derived Qt pixmap/movie objects are reconstructed from these fields and
carry no extra persisted state. -/
structure Sprite where
  name : String
  img_bytes : Option (List Nat)
  img_format : String
deriving Repr, DecidableEq

/-- Embedding of class `BackgroundResource`.  The constructor's
`color or QColor(200,200,255)` default means the stored color is never null,
so `color` is a plain `Color` here. -/
structure BackgroundResource where
  name : String
  mode : String
  color : Color
  img_bytes : Option (List Nat)
  img_format : String
  tiled : Bool
deriving Repr, DecidableEq

/-- Embedding of class `GameObjectType`: `sprite_index` is a foreign key into
the sprites collection, or null. -/
structure GameObjectType where
  name : String
  sprite_index : Option Int
deriving Repr, DecidableEq

/-- Embedding of class `GameObjectInstance`: a placed instance with a
non-null foreign key `object_index` into the object-type collection. -/
structure GameObjectInstance where
  x : Int
  y : Int
  object_index : Int
deriving Repr, DecidableEq

/-- Embedding of class `Level`: `background_index` is a foreign key into the
backgrounds collection or null; `instances` is the ordered placement list. -/
structure Level where
  name : String
  width : Int
  height : Int
  background_index : Option Int
  instances : List GameObjectInstance
deriving Repr, DecidableEq

/-- Embedding of the document state held by `GameMakerIDE`: the four resource
collections plus the four selection indices. -/
structure GameMakerIDE where
  sprites : List Sprite
  objects : List GameObjectType
  levels : List Level
  backgrounds : List BackgroundResource
  selected_sprite_index : Option Int
  selected_object_index : Option Int
  selected_level_index : Option Int
  selected_background_index : Option Int
deriving Repr, DecidableEq

/-- Replace the element at position `n` by `f` of it (used for the in-place
field updates the Python methods perform on `self.xs[idx]`). -/
def modifyAt (l : List α) (n : Nat) (f : α → α) : List α :=
  match l, n with
  | [], _ => []
  | x :: xs, 0 => f x :: xs
  | x :: xs, Nat.succ m => x :: modifyAt xs m f

/-- Python list subscription `l[i]`, including negative-index wrap-around;
`none` models the `IndexError` raise. -/
def pyGet? (l : List α) (i : Int) : Option α :=
  if 0 ≤ i then l.get? i.toNat
  else if 0 ≤ (l.length : Int) + i then l.get? ((l.length : Int) + i).toNat
  else none

/-- The whitespace set Python's `str.strip()` removes. -/
def isPySpace (c : Char) : Bool :=
  c = ' ' ∨ c = '\t' ∨ c = '\n' ∨ c = '\r' ∨ c = '\x0b' ∨ c = '\x0c'

/-- Python `str.strip()` on the character list of a string. -/
def trimChars (cs : List Char) : List Char :=
  ((cs.dropWhile isPySpace).reverse.dropWhile isPySpace).reverse

/-- Python truthiness of a stripped string: `name.strip()` is truthy exactly
when the name is not blank. -/
def strBlank (s : String) : Bool := trimChars s.data = []

/-- Accumulate a decimal digit run; `none` on the first non-digit. -/
def digitsValGo : List Char → Nat → Option Nat
  | [], acc => some acc
  | c :: cs, acc =>
    if c.isDigit then digitsValGo cs (10 * acc + (c.toNat - 48)) else none

/-- A non-empty all-digit run and its value. -/
def digitsVal : List Char → Option Nat
  | [] => none
  | cs => digitsValGo cs 0

/-- Python `int(text)` on the grammar the editor feeds it: optional
surrounding whitespace, an optional sign, then decimal digits.  (Python
also accepts digit-group underscores; the editor's size strings never
contain them, so that corner is not modeled.) -/
def pyInt? (s : String) : Option Int :=
  match trimChars s.data with
  | '-' :: cs => (digitsVal cs).map (fun n => -(n : Int))
  | '+' :: cs => (digitsVal cs).map (fun n => (n : Int))
  | cs => (digitsVal cs).map (fun n => (n : Int))

/-- Python `str.split(",")` on the character list: splits at every comma,
keeping empty fields. -/
def splitCommaChars : List Char → List (List Char)
  | [] => [[]]
  | c :: cs =>
    let rest := splitCommaChars cs
    if c = ',' then [] :: rest
    else
      match rest with
      | r :: rs => (c :: r) :: rs
      | [] => [[c]]

/-- The parse `w, h = map(int, text.split(","))` from
`GameMakerIDE.set_level_screen_size`: succeeds exactly when the text splits
on commas into two fields that both parse as integers. -/
def parseWH (s : String) : Option (Int × Int) :=
  match (splitCommaChars s.data).map (fun cs => String.mk cs) with
  | [a, b] =>
    match pyInt? a, pyInt? b with
    | some w, some h => some (w, h)
    | _, _ => none
  | _ => none

/-- Embedding of `GameMakerIDE.get_current_level` as an index: the selected
level index when it is non-null and in range, otherwise none. -/
def current_level_idx (st : GameMakerIDE) : Option Nat :=
  match st.selected_level_index with
  | none => none
  | some i => if 0 ≤ i ∧ i < (st.levels.length : Int) then some i.toNat else none

/-- Embedding of `GameMakerIDE.add_background`.  The non-init path takes the
tuple the accepted dialog returns; the dialog imposes no blank-name check. -/
def add_background (st : GameMakerIDE) (name mode : String) (color : Color)
    (img_bytes : Option (List Nat)) (img_format : String) (tiled : Bool) : GameMakerIDE :=
  { st with backgrounds :=
      st.backgrounds ++ [⟨name, mode, color, img_bytes, img_format, tiled⟩] }

/-- Embedding of `GameMakerIDE.add_sprite` (accepted-dialog path; no
blank-name check in the source). -/
def add_sprite (st : GameMakerIDE) (name : String) (img_bytes : Option (List Nat))
    (img_format : String) : GameMakerIDE :=
  { st with sprites := st.sprites ++ [⟨name, img_bytes, img_format⟩] }

/-- Embedding of `GameMakerIDE.add_object`: a blank name is rejected; an
added object starts with a null sprite reference and becomes the selected
object (`len(self.objects) - 1` after the append). -/
def add_object (st : GameMakerIDE) (name : String) : GameMakerIDE :=
  if strBlank name then st
  else
    { st with objects := st.objects ++ [⟨name, none⟩],
              selected_object_index := some (st.objects.length : Int) }

/-- Embedding of `GameMakerIDE.add_level`: a blank name is rejected; size
defaults to 640 by 360 and the background reference defaults to index 0 when
any background exists, else null; the new level becomes selected. -/
def add_level (st : GameMakerIDE) (name : String) : GameMakerIDE :=
  if strBlank name then st
  else
    { st with
      levels := st.levels ++
        [⟨name, 640, 360, (if st.backgrounds.isEmpty then none else some 0), []⟩],
      selected_level_index := some (st.levels.length : Int) }

/-- Embedding of `GameMakerIDE.rename_background` (accepted-dialog path):
requires a valid selection and a non-blank name, then renames in place. -/
def rename_background (st : GameMakerIDE) (name : String) : GameMakerIDE :=
  match st.selected_background_index with
  | none => st
  | some idx =>
    if 0 ≤ idx ∧ idx < (st.backgrounds.length : Int) then
      if strBlank name then st
      else { st with backgrounds := modifyAt st.backgrounds idx.toNat (fun b => { b with name := name }) }
    else st

/-- Embedding of `GameMakerIDE.rename_sprite` (accepted-dialog path). -/
def rename_sprite (st : GameMakerIDE) (name : String) : GameMakerIDE :=
  match st.selected_sprite_index with
  | none => st
  | some idx =>
    if 0 ≤ idx ∧ idx < (st.sprites.length : Int) then
      if strBlank name then st
      else { st with sprites := modifyAt st.sprites idx.toNat (fun s => { s with name := name }) }
    else st

/-- Embedding of `GameMakerIDE.rename_object` (accepted-dialog path). -/
def rename_object (st : GameMakerIDE) (name : String) : GameMakerIDE :=
  match st.selected_object_index with
  | none => st
  | some idx =>
    if 0 ≤ idx ∧ idx < (st.objects.length : Int) then
      if strBlank name then st
      else { st with objects := modifyAt st.objects idx.toNat (fun o => { o with name := name }) }
    else st

/-- Embedding of `GameMakerIDE.rename_level` (accepted-dialog path). -/
def rename_level (st : GameMakerIDE) (name : String) : GameMakerIDE :=
  match st.selected_level_index with
  | none => st
  | some idx =>
    if 0 ≤ idx ∧ idx < (st.levels.length : Int) then
      if strBlank name then st
      else { st with levels := modifyAt st.levels idx.toNat (fun l => { l with name := name }) }
    else st

/-- Loop body of the background-delete cascade of
`GameMakerIDE.delete_background`: a level referencing the removed index is
nulled, a higher reference is decremented, others are unchanged. -/
def bgCascade (idx : Int) (lvl : Level) : Level :=
  match lvl.background_index with
  | none => lvl
  | some b =>
    if b = idx then { lvl with background_index := none }
    else if b > idx then { lvl with background_index := some (b - 1) }
    else lvl

/-- Loop body of the sprite-delete cascade of `GameMakerIDE.delete_sprite`. -/
def spriteCascade (idx : Int) (obj : GameObjectType) : GameObjectType :=
  match obj.sprite_index with
  | none => obj
  | some s =>
    if s = idx then { obj with sprite_index := none }
    else if s > idx then { obj with sprite_index := some (s - 1) }
    else obj

/-- Per-level body of the object-delete cascade of
`GameMakerIDE.delete_object`: instances of the removed type are filtered
out, then the remaining higher references are decremented. -/
def objCascade (idx : Int) (lvl : Level) : Level :=
  { lvl with instances :=
      ((lvl.instances.filter (fun inst => inst.object_index ≠ idx)).map
        (fun inst =>
          if inst.object_index > idx then
            { inst with object_index := inst.object_index - 1 }
          else inst)) }

/-- Embedding of `GameMakerIDE.delete_background` on the user-confirmed
path: levels referencing the removed index are nulled, higher references are
decremented, the entry is removed, and the selection is cleared. -/
def delete_background (st : GameMakerIDE) : GameMakerIDE :=
  match st.selected_background_index with
  | none => st
  | some idx =>
    if 0 ≤ idx ∧ idx < (st.backgrounds.length : Int) then
      { st with
        levels := st.levels.map (bgCascade idx),
        backgrounds := st.backgrounds.eraseIdx idx.toNat,
        selected_background_index := none }
    else st

/-- Embedding of `GameMakerIDE.delete_sprite` on the user-confirmed path:
object types referencing the removed index are nulled, higher references are
decremented, the entry is removed, and the selection is cleared. -/
def delete_sprite (st : GameMakerIDE) : GameMakerIDE :=
  match st.selected_sprite_index with
  | none => st
  | some idx =>
    if 0 ≤ idx ∧ idx < (st.sprites.length : Int) then
      { st with
        objects := st.objects.map (spriteCascade idx),
        sprites := st.sprites.eraseIdx idx.toNat,
        selected_sprite_index := none }
    else st

/-- Embedding of `GameMakerIDE.delete_object` on the user-confirmed path:
in every level the instances of the removed type are filtered out, then the
remaining instances with a higher reference are decremented; the entry is
removed and the selection is cleared. -/
def delete_object (st : GameMakerIDE) : GameMakerIDE :=
  match st.selected_object_index with
  | none => st
  | some idx =>
    if 0 ≤ idx ∧ idx < (st.objects.length : Int) then
      { st with
        levels := st.levels.map (objCascade idx),
        objects := st.objects.eraseIdx idx.toNat,
        selected_object_index := none }
    else st

/-- Embedding of `GameMakerIDE.delete_level` on the user-confirmed path:
removes the level and re-points the selection at `min(idx, new length - 1)`
when levels remain, else clears it. -/
def delete_level (st : GameMakerIDE) : GameMakerIDE :=
  match st.selected_level_index with
  | none => st
  | some idx =>
    if 0 ≤ idx ∧ idx < (st.levels.length : Int) then
      let levels' := st.levels.eraseIdx idx.toNat
      { st with
        levels := levels',
        selected_level_index :=
          (if levels'.isEmpty then none
           else some (min idx ((levels'.length : Int) - 1))) }
    else st

/-- Embedding of `GameMakerIDE.on_background_selected`: the row of the
clicked list item becomes the selection. -/
def on_background_selected (st : GameMakerIDE) (row : Int) : GameMakerIDE :=
  { st with selected_background_index := some row }

/-- Embedding of `GameMakerIDE.on_sprite_selected`. -/
def on_sprite_selected (st : GameMakerIDE) (row : Int) : GameMakerIDE :=
  { st with selected_sprite_index := some row }

/-- Embedding of `GameMakerIDE.on_object_selected`. -/
def on_object_selected (st : GameMakerIDE) (row : Int) : GameMakerIDE :=
  { st with selected_object_index := some row }

/-- Embedding of `GameMakerIDE.on_level_selected`. -/
def on_level_selected (st : GameMakerIDE) (row : Int) : GameMakerIDE :=
  { st with selected_level_index := some row }

/-- Embedding of `GameMakerIDE.set_level_screen_size` (accepted-dialog
path): the entered text is parsed as `w, h = map(int, text.split(","))`; on
a parse failure only a warning is shown and the level keeps its size; on
success the parsed pair is assigned unconditionally - the source contains no
positivity check. -/
def set_level_screen_size (st : GameMakerIDE) (text : String) : GameMakerIDE :=
  match current_level_idx st with
  | none => st
  | some i =>
    match parseWH text with
    | some (w, h) =>
      { st with levels := modifyAt st.levels i (fun l => { l with width := w, height := h }) }
    | none => st

/-- Embedding of `GameObjectInstance.contains_point`.  `pixSize` is the
image codec boundary: it yields the current drawable's width and height for
a sprite (`Sprite.pixmap()` always returns a pixmap object, so the source's
`pix is None` branch corresponds to `pixSize` returning `none`).  The first
`pyGet?` failure branch models the `IndexError` Python would raise on
`objects[self.object_index]`; it is unreachable under the valid-reference
hypotheses of the theorems below. -/
def contains_point (pixSize : Sprite → Option (Int × Int)) (inst : GameObjectInstance)
    (px py : Int) (objects : List GameObjectType) (sprites : List Sprite) : Bool :=
  match pyGet? objects inst.object_index with
  | none => false
  | some obj =>
    match obj.sprite_index with
    | none => false
    | some s =>
      if (sprites.length : Int) ≤ s then false
      else
        match pyGet? sprites s with
        | none => false
        | some sprite =>
          match pixSize sprite with
          | none => false
          | some (w, h) =>
            decide (inst.x ≤ px ∧ px ≤ inst.x + w ∧ inst.y ≤ py ∧ py ≤ inst.y + h)

/-- Embedding of the hit-detection loop of `GameCanvas.mousePressEvent`:
`for i in reversed(range(len(level.instances))): if contains_point: return i`.
Returns the index of the first hit in reverse placement order. -/
def hitTest (pixSize : Sprite → Option (Int × Int)) (lvl : Level) (px py : Int)
    (objects : List GameObjectType) (sprites : List Sprite) : Option Nat :=
  (List.range lvl.instances.length).reverse.find? (fun i =>
    match lvl.instances.get? i with
    | some inst => contains_point pixSize inst px py objects sprites
    | none => false)

/-!
Serialization model.  `save_project` builds a Python dict of lists, strings,
ints, bools, `None`s and base64-encoded byte strings and writes it with
`json.dump`; `open_project` reads it back with `json.load`.  Because
`json.load (json.dump d)` is the identity on such values, the text layer is
embedded as a structured `Json` value; `Json.bytes bs` stands for the JSON
string holding the base64 encoding of the byte sequence `bs` (base64
encode/decode is a stdlib bijection between byte strings and those strings).
A whole input file that `json.load` rejects is modeled as the absent value
(`none`) at `open_project`'s entry.
-/

inductive Json where
  | null : Json
  | bool (b : Bool) : Json
  | int (n : Int) : Json
  | str (s : String) : Json
  | bytes (bs : List Nat) : Json
  | arr (xs : List Json) : Json
  | obj (kvs : List (String × Json)) : Json

/-- Key lookup in an object's key-value list (Python dicts produced by
`json.load` have unique keys). -/
def lookupKey : List (String × Json) → String → Option Json
  | [], _ => none
  | (k', v) :: rest, k => if k' = k then some v else lookupKey rest k

/-- Python `d.get(k)`: `none` both for a missing key and for a non-dict
receiver (on a non-dict, required-field access via `Json.get?` below is
always reached first in the loaders and turns into a load failure, matching
the `AttributeError`/`TypeError` Python raises). -/
def Json.get? : Json → String → Option Json
  | .obj kvs, k => lookupKey kvs k
  | _, _ => none

/-- Python truthiness of an embedded JSON value (`Json.bytes bs` is the
base64 string of `bs`, which is empty exactly when `bs` is). -/
def Json.truthy : Json → Bool
  | .null => false
  | .bool b => b
  | .int n => n ≠ 0
  | .str s => s ≠ ""
  | .bytes bs => !bs.isEmpty
  | .arr xs => !xs.isEmpty
  | .obj kvs => !kvs.isEmpty

/-- The idiom `base64.b64decode(d[key]) if d.get(key) else None` shared by
`Sprite.from_dict` and `BackgroundResource.from_dict`: a missing or falsy
field gives no bytes; a base64 payload decodes to its bytes; any other value
makes `b64decode` raise, which is a load failure (`none`). -/
def readOptBytes (v : Option Json) : Option (Option (List Nat)) :=
  match v with
  | none => some none
  | some w =>
    if w.truthy then
      match w with
      | .bytes bs => some (some bs)
      | _ => none
    else some none

/-- A required string field (`d[key]` raising `KeyError` when missing; a
non-string value raises later in `.lower()` calls or in the
`QListWidgetItem`/`addItem` call of the load loop, so it is modeled as an
immediate load failure). -/
def readStr (v : Option Json) : Option String :=
  match v with
  | some (.str s) => some s
  | _ => none

/-- An optional string field with a default, as in `d.get(key, dflt)`.
A present non-string value is modeled as a load failure (see `readStr`). -/
def readStrD (v : Option Json) (dflt : String) : Option String :=
  match v with
  | none => some dflt
  | some (.str s) => some s
  | _ => none

/-- A required int field; non-int values are modeled as a load failure (in
the source they raise in the integer comparisons or Qt calls that consume
them during the load). -/
def readInt (v : Option Json) : Option Int :=
  match v with
  | some (.int n) => some n
  | _ => none

/-- A nullable int field read with `d.get(key)`: missing and `null` both
give `None`; a present non-int, non-null value is modeled as a load
failure. -/
def readOptInt (v : Option Json) : Option (Option Int) :=
  match v with
  | none => some none
  | some .null => some none
  | some (.int n) => some (some n)
  | some _ => none

/-- A required nullable int field, as in `obj_info["sprite_index"]`: a
missing key raises `KeyError`; null gives `None`; non-int, non-null values
are modeled as a load failure. -/
def readOptIntReq (v : Option Json) : Option (Option Int) :=
  match v with
  | some .null => some none
  | some (.int n) => some (some n)
  | _ => none

/-- Embedding of `Sprite.from_dict`; `none` is a raise inside the
conversion, which fails the whole load. -/
def Sprite.from_dict (d : Json) : Option Sprite :=
  match readOptBytes (d.get? "img_bytes") with
  | none => none
  | some ib =>
    match readStr (d.get? "name") with
    | none => none
    | some nm =>
      match readStrD (d.get? "img_format") "PNG" with
      | none => none
      | some fmt => some ⟨nm, ib, fmt⟩

/-- The `QColor(*d["color"]) if d.get("color") else QColor(200,200,255)`
read of `BackgroundResource.from_dict`: missing or falsy gives the default
color, a 4-channel (or 3-channel, alpha 255) integer array rebuilds the
color, anything else makes the `QColor` call raise. -/
def readColor (v : Option Json) : Option Color :=
  match v with
  | none => some ⟨200, 200, 255, 255⟩
  | some w =>
    if w.truthy then
      match w with
      | .arr [.int r, .int g, .int b, .int a] => some ⟨r, g, b, a⟩
      | .arr [.int r, .int g, .int b] => some ⟨r, g, b, 255⟩
      | _ => none
    else some ⟨200, 200, 255, 255⟩

/-- The `d.get("tiled", True)` read: missing defaults to true; a non-bool
value is modeled as a load failure (the source would store it as-is, a
corner no claim depends on). -/
def readTiled (v : Option Json) : Option Bool :=
  match v with
  | none => some true
  | some (.bool b) => some b
  | _ => none

/-- Embedding of `BackgroundResource.from_dict`. -/
def BackgroundResource.from_dict (d : Json) : Option BackgroundResource :=
  match readOptBytes (d.get? "img_bytes") with
  | none => none
  | some ib =>
    match readColor (d.get? "color") with
    | none => none
    | some col =>
      match readStr (d.get? "name") with
      | none => none
      | some nm =>
        match readStrD (d.get? "mode") "color" with
        | none => none
        | some mode =>
          match readStrD (d.get? "img_format") "PNG" with
          | none => none
          | some fmt =>
            match readTiled (d.get? "tiled") with
            | none => none
            | some tiled => some ⟨nm, mode, col, ib, fmt, tiled⟩

/-- The object-entry conversion inside `open_project`:
`GameObjectType(obj_info["name"], obj_info["sprite_index"])` - both fields
are required. -/
def GameObjectType.fromJson (d : Json) : Option GameObjectType :=
  match readStr (d.get? "name") with
  | none => none
  | some nm =>
    match readOptIntReq (d.get? "sprite_index") with
    | none => none
    | some si => some ⟨nm, si⟩

/-- A required-array field (`data[key]` must exist and iterating it must
yield dict entries; iterating a non-list raises at, or inside, the first
entry conversion). -/
def readArr (v : Option Json) : Option (List Json) :=
  match v with
  | some (.arr xs) => some xs
  | _ => none

/-- Converts a prefix of entries until the first failing one, matching the
per-entry append of the load loops: entries before the raise stay loaded,
the failing and following ones are dropped and the load fails. -/
def loadList (f : Json → Option α) : List Json → List α × Bool
  | [] => ([], true)
  | j :: js =>
    match f j with
    | none => ([], false)
    | some a =>
      let (rest, ok) := loadList f js
      (a :: rest, ok)

/-- The instance loop of `open_project`'s level reconstruction: an entry
whose `object_index` is outside the already-loaded object list is silently
dropped; `x` and `y` are only read for kept entries. -/
def loadInstances (objCount : Nat) : List Json → Option (List GameObjectInstance)
  | [] => some []
  | j :: js =>
    match readInt (j.get? "object_index") with
    | none => none
    | some oi =>
      if 0 ≤ oi ∧ oi < (objCount : Int) then
        match readInt (j.get? "x") with
        | none => none
        | some x =>
          match readInt (j.get? "y") with
          | none => none
          | some y =>
            match loadInstances objCount js with
            | none => none
            | some rest => some (⟨x, y, oi⟩ :: rest)
      else loadInstances objCount js

/-- The level-entry conversion inside `open_project`: name, width and
height are required, `background_index` is read with `.get` (so missing and
null both give `None` and are accepted as-is, with no range check), and the
instance list is filtered by `loadInstances`. -/
def Level.fromJson (objCount : Nat) (d : Json) : Option Level :=
  match readStr (d.get? "name") with
  | none => none
  | some nm =>
    match readInt (d.get? "width") with
    | none => none
    | some w =>
      match readInt (d.get? "height") with
      | none => none
      | some h =>
        match readOptInt (d.get? "background_index") with
        | none => none
        | some bg =>
          match readArr (d.get? "instances") with
          | none => none
          | some instsJson =>
            match loadInstances objCount instsJson with
            | none => none
            | some insts => some ⟨nm, w, h, bg, insts⟩

/-- Stage one of `open_project`: `self.backgrounds = []` runs before
`data["backgrounds"]` is read, so a failure here leaves the backgrounds
cleared (respectively, partially loaded) while everything else keeps its
previous value. -/
def stageBackgrounds (st : GameMakerIDE) (data : Json) : GameMakerIDE × Bool :=
  let st := { st with backgrounds := [] }
  match readArr (data.get? "backgrounds") with
  | none => (st, false)
  | some xs =>
    let (bgs, ok) := loadList BackgroundResource.from_dict xs
    ({ st with backgrounds := bgs }, ok)

/-- Stage two of `open_project`, for sprites. -/
def stageSprites (st : GameMakerIDE) (data : Json) : GameMakerIDE × Bool :=
  let st := { st with sprites := [] }
  match readArr (data.get? "sprites") with
  | none => (st, false)
  | some xs =>
    let (sps, ok) := loadList Sprite.from_dict xs
    ({ st with sprites := sps }, ok)

/-- Stage three of `open_project`, for object types. -/
def stageObjects (st : GameMakerIDE) (data : Json) : GameMakerIDE × Bool :=
  let st := { st with objects := [] }
  match readArr (data.get? "objects") with
  | none => (st, false)
  | some xs =>
    let (objs, ok) := loadList GameObjectType.fromJson xs
    ({ st with objects := objs }, ok)

/-- Stage four of `open_project`, for levels; the instance filter uses the
object list loaded in stage three. -/
def stageLevels (st : GameMakerIDE) (data : Json) : GameMakerIDE × Bool :=
  let st := { st with levels := [] }
  match readArr (data.get? "levels") with
  | none => (st, false)
  | some xs =>
    let (lvls, ok) := loadList (Level.fromJson st.objects.length) xs
    ({ st with levels := lvls }, ok)

/-- The selection read `data.get(key)` of `open_project`: missing and null
give `None`; an int is assigned as-is; any other value is modeled as a load
failure (in the source it is assigned and then raises inside the
`setCurrentRow` call when the collection is non-empty). -/
def readSel (data : Json) (key : String) : Option (Option Int) :=
  readOptInt (data.get? key)

/-- The final stage of `open_project`: the three stored selection indices
are assigned, then a null one is re-defaulted to row 0 when its collection
is non-empty; nothing else is changed (in particular a stored out-of-range
index is kept, and nothing is nulled for an empty collection). -/
def stageSelections (st : GameMakerIDE) (data : Json) : GameMakerIDE × Bool :=
  match readSel data "selected_level_index" with
  | none => (st, false)
  | some sl =>
    match readSel data "selected_object_index" with
    | none => ({ st with selected_level_index := sl }, false)
    | some so =>
      match readSel data "selected_background_index" with
      | none => ({ st with selected_level_index := sl, selected_object_index := so }, false)
      | some sb =>
        ({ st with
           selected_level_index := (if ¬st.levels.isEmpty ∧ sl = none then some 0 else sl),
           selected_object_index := (if ¬st.objects.isEmpty ∧ so = none then some 0 else so),
           selected_background_index :=
             (if ¬st.backgrounds.isEmpty ∧ sb = none then some 0 else sb) }, true)

/-- Runs the next load stage only when the previous ones have not raised;
a raise short-circuits the rest of the `try` body with the state reached so
far. -/
def stageSeq (r : GameMakerIDE × Bool) (f : GameMakerIDE → GameMakerIDE × Bool) :
    GameMakerIDE × Bool :=
  if r.2 then f r.1 else r

/-- Embedding of `GameMakerIDE.open_project`.  `none` is an input file that
`json.load` rejects: the exception is raised before any assignment, so the
document is untouched.  After parsing, the stages run in source order and
the first raise stops the load with every assignment made so far kept (the
surrounding `except` only shows a message box).  The returned flag is
whether the load ran to completion. -/
def open_project (st : GameMakerIDE) : Option Json → GameMakerIDE × Bool
  | none => (st, false)
  | some data =>
    stageSeq (stageSeq (stageSeq (stageSeq (stageBackgrounds st data)
      (fun s => stageSprites s data)) (fun s => stageObjects s data))
      (fun s => stageLevels s data)) (fun s => stageSelections s data)

/-- The `if self.img_bytes else None` save encoding shared by both
`to_dict` methods: absent or empty bytes serialize as null (empty bytes are
falsy), anything else as its base64 string. -/
def bytesToJson : Option (List Nat) → Json
  | none => .null
  | some bs => if bs.isEmpty then .null else .bytes bs

/-- A nullable index serializes as the int or as null. -/
def optIntToJson : Option Int → Json
  | none => .null
  | some n => .int n

/-- Embedding of `Sprite.to_dict`. -/
def Sprite.to_dict (s : Sprite) : Json :=
  .obj [("name", .str s.name),
        ("img_bytes", bytesToJson s.img_bytes),
        ("img_format", .str s.img_format)]

/-- Embedding of `BackgroundResource.to_dict` (the stored color is always a
`QColor`, hence always truthy, so the color tuple branch is always taken). -/
def BackgroundResource.to_dict (b : BackgroundResource) : Json :=
  .obj [("name", .str b.name),
        ("mode", .str b.mode),
        ("color", .arr [.int b.color.r, .int b.color.g, .int b.color.b, .int b.color.a]),
        ("img_bytes", bytesToJson b.img_bytes),
        ("img_format", .str b.img_format),
        ("tiled", .bool b.tiled)]

/-- The object entry of `save_project`'s data dict. -/
def GameObjectType.toJson (o : GameObjectType) : Json :=
  .obj [("name", .str o.name), ("sprite_index", optIntToJson o.sprite_index)]

/-- The instance entry of `save_project`'s data dict. -/
def GameObjectInstance.toJson (i : GameObjectInstance) : Json :=
  .obj [("x", .int i.x), ("y", .int i.y), ("object_index", .int i.object_index)]

/-- The level entry of `save_project`'s data dict. -/
def Level.toJson (l : Level) : Json :=
  .obj [("name", .str l.name),
        ("width", .int l.width),
        ("height", .int l.height),
        ("background_index", optIntToJson l.background_index),
        ("instances", .arr (l.instances.map GameObjectInstance.toJson))]

/-- Embedding of the data dict built by `GameMakerIDE.save_project` (the
sprite selection is not persisted). -/
def save_project (st : GameMakerIDE) : Json :=
  .obj [("backgrounds", .arr (st.backgrounds.map BackgroundResource.to_dict)),
        ("sprites", .arr (st.sprites.map Sprite.to_dict)),
        ("objects", .arr (st.objects.map GameObjectType.toJson)),
        ("levels", .arr (st.levels.map Level.toJson)),
        ("selected_level_index", optIntToJson st.selected_level_index),
        ("selected_object_index", optIntToJson st.selected_object_index),
        ("selected_background_index", optIntToJson st.selected_background_index)]

/-!
Editor actions as a step relation.  Each constructor is one user-triggered
mutation entry point of `GameMakerIDE`; the select constructors carry the
clicked row and model how the UI chooses the target of a subsequent rename
or delete.  Dialog-supplied values appear as constructor arguments.
-/

inductive Op where
  | addBackground (name mode : String) (color : Color)
      (img_bytes : Option (List Nat)) (img_format : String) (tiled : Bool) : Op
  | addSprite (name : String) (img_bytes : Option (List Nat)) (img_format : String) : Op
  | addObject (name : String) : Op
  | addLevel (name : String) : Op
  | renameBackground (name : String) : Op
  | renameSprite (name : String) : Op
  | renameObject (name : String) : Op
  | renameLevel (name : String) : Op
  | deleteBackground : Op
  | deleteSprite : Op
  | deleteObject : Op
  | deleteLevel : Op
  | selectBackground (row : Int) : Op
  | selectSprite (row : Int) : Op
  | selectObject (row : Int) : Op
  | selectLevel (row : Int) : Op

/-- Dispatch one editor action to its embedded entry point. -/
def step (st : GameMakerIDE) : Op → GameMakerIDE
  | .addBackground nm mode col ib fmt tiled => add_background st nm mode col ib fmt tiled
  | .addSprite nm ib fmt => add_sprite st nm ib fmt
  | .addObject nm => add_object st nm
  | .addLevel nm => add_level st nm
  | .renameBackground nm => rename_background st nm
  | .renameSprite nm => rename_sprite st nm
  | .renameObject nm => rename_object st nm
  | .renameLevel nm => rename_level st nm
  | .deleteBackground => delete_background st
  | .deleteSprite => delete_sprite st
  | .deleteObject => delete_object st
  | .deleteLevel => delete_level st
  | .selectBackground row => on_background_selected st row
  | .selectSprite row => on_sprite_selected st row
  | .selectObject row => on_object_selected st row
  | .selectLevel row => on_level_selected st row

/-- Run a sequence of editor actions. -/
def applyOps (st : GameMakerIDE) (ops : List Op) : GameMakerIDE :=
  ops.foldl step st

/-- A nullable foreign key is valid for a collection of `n` entries when it
is null or a genuine index. -/
def fkOk : Option Int → Nat → Prop
  | none, _ => True
  | some k, n => 0 ≤ k ∧ k < (n : Int)

instance (o : Option Int) (n : Nat) : Decidable (fkOk o n) :=
  match o with
  | none => isTrue trivial
  | some k => inferInstanceAs (Decidable (0 ≤ k ∧ k < (n : Int)))

/-- A non-null foreign key (an instance's object reference) is valid when it
is a genuine index. -/
def instOk (i : Int) (n : Nat) : Prop := 0 ≤ i ∧ i < (n : Int)

instance (i : Int) (n : Nat) : Decidable (instOk i n) :=
  inferInstanceAs (Decidable (0 ≤ i ∧ i < (n : Int)))

/-- Referential integrity of the document: every non-null foreign key
(object type to sprite, level to background, placed instance to object type)
resolves to a valid index in its target collection. -/
def docValid (st : GameMakerIDE) : Prop :=
  (∀ obj ∈ st.objects, fkOk obj.sprite_index st.sprites.length) ∧
  (∀ lvl ∈ st.levels, fkOk lvl.background_index st.backgrounds.length) ∧
  (∀ lvl ∈ st.levels, ∀ inst ∈ lvl.instances, instOk inst.object_index st.objects.length)

instance (st : GameMakerIDE) : Decidable (docValid st) :=
  inferInstanceAs (Decidable (_ ∧ _ ∧ _))

/-- Spec-side transcription of the instance cascade rule for deleting the
object type at index `k`: an instance referencing `k` is removed, a higher
reference is decremented, a lower one is unchanged. -/
def cascadeInstance (k : Int) (inst : GameObjectInstance) : Option GameObjectInstance :=
  if inst.object_index = k then none
  else if k < inst.object_index then some { inst with object_index := inst.object_index - 1 }
  else some inst

/-- Spec-side transcription of the claim's hit condition for the instance at
position `i`: its object type resolves, that type's sprite reference is
non-null and in range, the sprite's current drawable has a size, and the
probed point lies in the inclusive rectangle spanned from the instance
position by that size. -/
def HitSpec (pixSize : Sprite → Option (Int × Int)) (lvl : Level) (px py : Int)
    (objects : List GameObjectType) (sprites : List Sprite) (i : Nat) : Prop :=
  ∃ inst, lvl.instances.get? i = some inst ∧
    ∃ obj, objects.get? inst.object_index.toNat = some obj ∧
      ∃ s, obj.sprite_index = some s ∧ 0 ≤ s ∧ s < (sprites.length : Int) ∧
        ∃ sprite, sprites.get? s.toNat = some sprite ∧
          ∃ w h, pixSize sprite = some (w, h) ∧
            inst.x ≤ px ∧ px ≤ inst.x + w ∧ inst.y ≤ py ∧ py ≤ inst.y + h

/-- A small concrete document used to instantiate the general theorems:
two sprites, three object types, one level with two placed instances, one
background, with the sprite at index 0 selected for deletion. -/
def exDoc : GameMakerIDE :=
  { sprites := [⟨"A", some [1, 2, 3], "PNG"⟩, ⟨"B", none, "PNG"⟩],
    objects := [⟨"O1", some 1⟩, ⟨"O2", some 0⟩, ⟨"O3", none⟩],
    levels := [⟨"L1", 640, 360, some 0, [⟨32, 32, 0⟩, ⟨0, 0, 2⟩]⟩],
    backgrounds := [⟨"Sky", "color", ⟨200, 200, 255, 255⟩, none, "PNG", true⟩],
    selected_sprite_index := some 0,
    selected_object_index := some 0,
    selected_level_index := some 0,
    selected_background_index := some 0 }

/-- The spec's scenario document: background "Sky" (color mode, RGBA
200,200,255,255), level "L1" 640 by 360 referencing background 0, object
type "Hero" with a null sprite reference, and one instance placed at
(32,32) referencing object type 0; background 0 is selected for deletion. -/
def scenarioDoc : GameMakerIDE :=
  { sprites := [],
    objects := [⟨"Hero", none⟩],
    levels := [⟨"L1", 640, 360, some 0, [⟨32, 32, 0⟩]⟩],
    backgrounds := [⟨"Sky", "color", ⟨200, 200, 255, 255⟩, none, "PNG", true⟩],
    selected_sprite_index := none,
    selected_object_index := some 0,
    selected_level_index := some 0,
    selected_background_index := some 0 }

/-- A document with at least one entry per collection and one placed
instance, whose background selection is null: the round-trip input of the
serialization counterexample. -/
def rtDoc : GameMakerIDE :=
  { sprites := [⟨"A", some [7, 7], "PNG"⟩],
    objects := [⟨"O1", some 0⟩],
    levels := [⟨"L1", 640, 360, some 0, [⟨32, 32, 0⟩]⟩],
    backgrounds := [⟨"Sky", "color", ⟨200, 200, 255, 255⟩, none, "PNG", true⟩],
    selected_sprite_index := some 0,
    selected_object_index := some 0,
    selected_level_index := some 0,
    selected_background_index := none }

/-- Like `rtDoc` but with every persisted selection non-null, so the
amended round-trip theorem applies to it. -/
def rtGoodDoc : GameMakerIDE :=
  { rtDoc with selected_background_index := some 0 }

/-- A persisted document that loads successfully while storing a level
selection index (7) past the end of its one-level collection. -/
def c8json : Json :=
  .obj [("backgrounds", .arr []),
        ("sprites", .arr []),
        ("objects", .arr []),
        ("levels", .arr [.obj [("name", .str "L"), ("width", .int 640),
          ("height", .int 360), ("instances", .arr [])]]),
        ("selected_level_index", .int 7)]

/-- A concrete action sequence exercising every cascade, used to
instantiate the referential-integrity theorem. -/
def ops0 : List Op :=
  [.selectSprite 0, .deleteSprite, .addObject "X", .selectObject 1, .deleteObject,
   .addLevel "L2", .selectBackground 0, .deleteBackground, .selectLevel 0, .deleteLevel,
   .renameObject "Y", .addSprite "S2" none "PNG"]

/-- A pixmap-size interpretation of the image codec used to instantiate the
hit-test theorem: every sprite decodes to a 16 by 16 drawable. -/
def pix16 : Sprite → Option (Int × Int) := fun _ => some (16, 16)

/-- A two-instance level in which the later-placed instance overlaps the
earlier one, used to instantiate the hit-test theorem. -/
def hitLvl : Level := ⟨"L", 640, 360, none, [⟨0, 0, 0⟩, ⟨8, 8, 1⟩]⟩

/-- Object types for the hit-test instantiation. -/
def hitObjects : List GameObjectType := [⟨"O", some 0⟩, ⟨"P", some 1⟩]

/-- Sprites for the hit-test instantiation. -/
def hitSprites : List Sprite := [⟨"A", none, "PNG"⟩, ⟨"B", none, "PNG"⟩]

/-! Helper lemmas. -/

theorem rename_sprite_blank (st : GameMakerIDE) (name : String)
    (h : strBlank name = true) : rename_sprite st name = st := by
  unfold rename_sprite
  cases st.selected_sprite_index with
  | none => rfl
  | some idx =>
    by_cases hg : 0 ≤ idx ∧ idx < (st.sprites.length : Int)
    · simp [hg, h]
    · simp [hg]

theorem rename_background_blank (st : GameMakerIDE) (name : String)
    (h : strBlank name = true) : rename_background st name = st := by
  unfold rename_background
  cases st.selected_background_index with
  | none => rfl
  | some idx =>
    by_cases hg : 0 ≤ idx ∧ idx < (st.backgrounds.length : Int)
    · simp [hg, h]
    · simp [hg]

theorem rename_object_blank (st : GameMakerIDE) (name : String)
    (h : strBlank name = true) : rename_object st name = st := by
  unfold rename_object
  cases st.selected_object_index with
  | none => rfl
  | some idx =>
    by_cases hg : 0 ≤ idx ∧ idx < (st.objects.length : Int)
    · simp [hg, h]
    · simp [hg]

theorem rename_level_blank (st : GameMakerIDE) (name : String)
    (h : strBlank name = true) : rename_level st name = st := by
  unfold rename_level
  cases st.selected_level_index with
  | none => rfl
  | some idx =>
    by_cases hg : 0 ≤ idx ∧ idx < (st.levels.length : Int)
    · simp [hg, h]
    · simp [hg]

theorem cascade_filter_map (k : Int) (l : List GameObjectInstance) :
    (l.filter (fun inst => inst.object_index ≠ k)).map
      (fun inst =>
        if inst.object_index > k then { inst with object_index := inst.object_index - 1 }
        else inst)
    = l.filterMap (cascadeInstance k) := by
  induction l with
  | nil => rfl
  | cons a l ih =>
    simp only [ne_eq, gt_iff_lt, decide_not] at ih ⊢
    by_cases h : a.object_index = k
    · simp [List.filter_cons, List.filterMap_cons, h, cascadeInstance, ih]
    · by_cases h2 : k < a.object_index
      · simp [List.filter_cons, List.filterMap_cons, h, h2, cascadeInstance, ih]
      · simp [List.filter_cons, List.filterMap_cons, h, h2, cascadeInstance, ih]

/-! Claim theorems. -/

/-- C7 counterexample: the claim says `resize(level, -1, 100)` is rejected
and the level keeps its size; on the embedded `set_level_screen_size` the
text "-1,100" parses and the selected level's width is overwritten with -1,
so the document changes. -/
theorem C7_resize_counterexample :
    set_level_screen_size exDoc "-1,100" ≠ exDoc ∧
    ((set_level_screen_size exDoc "-1,100").levels.get? 0).map Level.width = some (-1) ∧
    (exDoc.levels.get? 0).map Level.width = some 640 := by
  decide

/-- C7 as amended: a rename to a blank name is rejected with the document
unchanged; a resize whose text does not parse as two comma-separated
integers is rejected with the document unchanged; but a parseable pair,
including non-positive values such as -1, is accepted and overwrites the
selected level's width and height unconditionally. -/
theorem C7_amended :
    (∀ (st : GameMakerIDE) (name : String), strBlank name = true →
      rename_sprite st name = st ∧ rename_background st name = st ∧
      rename_object st name = st ∧ rename_level st name = st) ∧
    (∀ (st : GameMakerIDE) (text : String), parseWH text = none →
      set_level_screen_size st text = st) ∧
    (∀ (st : GameMakerIDE) (text : String) (w h : Int) (i : Nat),
      parseWH text = some (w, h) → current_level_idx st = some i →
      (set_level_screen_size st text).levels =
        modifyAt st.levels i (fun l => { l with width := w, height := h })) := by
  refine ⟨?_, ?_, ?_⟩
  · intro st name h
    exact ⟨rename_sprite_blank st name h, rename_background_blank st name h,
      rename_object_blank st name h, rename_level_blank st name h⟩
  · intro st text h
    unfold set_level_screen_size
    cases hcur : current_level_idx st with
    | none => rfl
    | some i => rw [h]
  · intro st text w h i hp hcur
    unfold set_level_screen_size
    rw [hcur, hp]

/-- C7 witness: the amended statement at concrete inputs - a blank rename
and a malformed resize leave `exDoc` unchanged, and the resize text
"-1,100" is accepted and rewrites the selected level's size. -/
theorem C7_amended_witness :
    strBlank " " = true ∧ rename_sprite exDoc " " = exDoc ∧
    parseWH "nonsense" = none ∧ set_level_screen_size exDoc "nonsense" = exDoc ∧
    parseWH "-1,100" = some (-1, 100) ∧ current_level_idx exDoc = some 0 ∧
    (set_level_screen_size exDoc "-1,100").levels =
      modifyAt exDoc.levels 0 (fun l => { l with width := -1, height := 100 }) :=
  ⟨by decide, (C7_amended.1 exDoc " " (by decide)).1,
   by decide, C7_amended.2.1 exDoc "nonsense" (by decide),
   by decide, by decide,
   C7_amended.2.2 exDoc "-1,100" (-1) 100 0 (by decide) (by decide)⟩

/-- C10: after a successful (selection valid, user-confirmed) delete of a
background, sprite, or object type, the selection index of that same
collection is cleared to null, never renumbered. -/
theorem C10_delete_clears_selection (st : GameMakerIDE) :
    (∀ k : Int, st.selected_background_index = some k → 0 ≤ k →
      k < (st.backgrounds.length : Int) →
      (delete_background st).selected_background_index = none) ∧
    (∀ k : Int, st.selected_sprite_index = some k → 0 ≤ k →
      k < (st.sprites.length : Int) →
      (delete_sprite st).selected_sprite_index = none) ∧
    (∀ k : Int, st.selected_object_index = some k → 0 ≤ k →
      k < (st.objects.length : Int) →
      (delete_object st).selected_object_index = none) := by
  refine ⟨?_, ?_, ?_⟩
  · intro k hsel h0 hk
    unfold delete_background
    rw [hsel]
    dsimp only
    rw [if_pos ⟨h0, hk⟩]
  · intro k hsel h0 hk
    unfold delete_sprite
    rw [hsel]
    dsimp only
    rw [if_pos ⟨h0, hk⟩]
  · intro k hsel h0 hk
    unfold delete_object
    rw [hsel]
    dsimp only
    rw [if_pos ⟨h0, hk⟩]

/-- C10 witness: deleting the selected background, sprite and object of the
sample document clears the corresponding selection. -/
theorem C10_witness :
    (delete_background exDoc).selected_background_index = none ∧
    (delete_sprite exDoc).selected_sprite_index = none ∧
    (delete_object exDoc).selected_object_index = none :=
  ⟨(C10_delete_clears_selection exDoc).1 0 rfl (by decide) (by decide),
   (C10_delete_clears_selection exDoc).2.1 0 rfl (by decide) (by decide),
   (C10_delete_clears_selection exDoc).2.2 0 rfl (by decide) (by decide)⟩

/-- C2: deleting the sprite at a valid selected index `k` nulls the sprite
reference of every object type referencing `k`, decrements references
greater than `k`, and leaves lower and null references (and all names)
unchanged, preserving the number of object types. -/
theorem C2_delete_sprite_cascade (st : GameMakerIDE) (k : Int)
    (hsel : st.selected_sprite_index = some k)
    (h0 : 0 ≤ k) (hk : k < (st.sprites.length : Int)) :
    (delete_sprite st).objects.length = st.objects.length ∧
    ∀ (j : Nat) (obj obj' : GameObjectType),
      st.objects.get? j = some obj →
      (delete_sprite st).objects.get? j = some obj' →
      obj'.name = obj.name ∧
      (obj.sprite_index = some k → obj'.sprite_index = none) ∧
      (∀ s, obj.sprite_index = some s → k < s → obj'.sprite_index = some (s - 1)) ∧
      (∀ s, obj.sprite_index = some s → s < k → obj'.sprite_index = some s) ∧
      (obj.sprite_index = none → obj'.sprite_index = none) := by
  unfold delete_sprite
  rw [hsel]
  dsimp only
  rw [if_pos ⟨h0, hk⟩]
  refine ⟨by simp, ?_⟩
  intro j obj obj' hj hj'
  rw [List.get?_eq_getElem?] at hj
  simp only [List.get?_eq_getElem?, List.getElem?_map, hj, Option.map_some'] at hj'
  cases hj'
  unfold spriteCascade
  cases hsi : obj.sprite_index with
  | none => simp [hsi]
  | some s =>
    simp only [hsi, Option.some.injEq]
    split_ifs with h1 h2
    · refine ⟨rfl, fun _ => rfl, ?_, ?_, fun h => nomatch h⟩
      · intro s' hs' hlt
        exfalso
        omega
      · intro s' hs' hlt
        exfalso
        omega
    · refine ⟨rfl, ?_, ?_, ?_, fun h => nomatch h⟩
      · intro h
        exact absurd h h1
      · intro s' hs' hlt
        cases hs'
        rfl
      · intro s' hs' hlt
        exfalso
        omega
    · refine ⟨rfl, ?_, ?_, ?_, fun h => nomatch h⟩
      · intro h
        exact absurd h h1
      · intro s' hs' hlt
        exfalso
        omega
      · intro s' hs' hlt
        cases hs'
        exact hsi

/-- C2 witness: the cascade theorem applied to the sample document with the
selected sprite 0 deleted, together with the concrete cascaded collection. -/
theorem C2_witness :
    exDoc.selected_sprite_index = some 0 ∧
    (delete_sprite exDoc).objects =
      [⟨"O1", some 0⟩, ⟨"O2", none⟩, ⟨"O3", none⟩] ∧
    (delete_sprite exDoc).objects.length = exDoc.objects.length :=
  ⟨rfl, by decide, (C2_delete_sprite_cascade exDoc 0 rfl (by decide) (by decide)).1⟩

/-- C3: deleting the object type at a valid selected index `k` rewrites
every level's instance list by removing instances referencing `k` and
decrementing higher references (`cascadeInstance`), leaving level names and
background references untouched. -/
theorem C3_delete_object_cascade (st : GameMakerIDE) (k : Int)
    (hsel : st.selected_object_index = some k)
    (h0 : 0 ≤ k) (hk : k < (st.objects.length : Int)) :
    (delete_object st).levels.length = st.levels.length ∧
    ∀ (i : Nat) (lvl lvl' : Level),
      st.levels.get? i = some lvl →
      (delete_object st).levels.get? i = some lvl' →
      lvl'.name = lvl.name ∧ lvl'.background_index = lvl.background_index ∧
      lvl'.instances = lvl.instances.filterMap (cascadeInstance k) := by
  unfold delete_object
  rw [hsel]
  dsimp only
  rw [if_pos ⟨h0, hk⟩]
  refine ⟨by simp, ?_⟩
  intro i lvl lvl' hi hi'
  rw [List.get?_eq_getElem?] at hi
  simp only [List.get?_eq_getElem?, List.getElem?_map, hi, Option.map_some'] at hi'
  cases hi'
  exact ⟨rfl, rfl, cascade_filter_map k lvl.instances⟩

/-- C3 witness: the cascade theorem applied to the sample document with
object type 0 deleted; the placed instance of type 0 disappears and the
instance of type 2 is renumbered to 1. -/
theorem C3_witness :
    exDoc.selected_object_index = some 0 ∧
    (delete_object exDoc).levels.length = exDoc.levels.length ∧
    (delete_object exDoc).levels =
      [⟨"L1", 640, 360, some 0, [⟨0, 0, 1⟩]⟩] ∧
    exDoc.levels.get? 0 = some ⟨"L1", 640, 360, some 0, [⟨32, 32, 0⟩, ⟨0, 0, 2⟩]⟩ :=
  ⟨rfl, (C3_delete_object_cascade exDoc 0 rfl (by decide) (by decide)).1,
   by decide, by decide⟩

/-- C4: deleting the background at a valid selected index `k` nulls the
background reference of every level referencing `k`, decrements references
greater than `k`, leaves lower and null references unchanged, and leaves
every level's name, size and instance list untouched. -/
theorem C4_delete_background_cascade (st : GameMakerIDE) (k : Int)
    (hsel : st.selected_background_index = some k)
    (h0 : 0 ≤ k) (hk : k < (st.backgrounds.length : Int)) :
    (delete_background st).levels.length = st.levels.length ∧
    ∀ (i : Nat) (lvl lvl' : Level),
      st.levels.get? i = some lvl →
      (delete_background st).levels.get? i = some lvl' →
      lvl'.name = lvl.name ∧ lvl'.width = lvl.width ∧ lvl'.height = lvl.height ∧
      lvl'.instances = lvl.instances ∧
      (lvl.background_index = some k → lvl'.background_index = none) ∧
      (∀ b, lvl.background_index = some b → k < b → lvl'.background_index = some (b - 1)) ∧
      (∀ b, lvl.background_index = some b → b < k → lvl'.background_index = some b) ∧
      (lvl.background_index = none → lvl'.background_index = none) := by
  unfold delete_background
  rw [hsel]
  dsimp only
  rw [if_pos ⟨h0, hk⟩]
  refine ⟨by simp, ?_⟩
  intro i lvl lvl' hi hi'
  rw [List.get?_eq_getElem?] at hi
  simp only [List.get?_eq_getElem?, List.getElem?_map, hi, Option.map_some'] at hi'
  cases hi'
  unfold bgCascade
  cases hbg : lvl.background_index with
  | none => simp [hbg]
  | some b =>
    simp only [hbg, Option.some.injEq]
    split_ifs with h1 h2
    · refine ⟨rfl, rfl, rfl, rfl, fun _ => rfl, ?_, ?_, fun h => nomatch h⟩
      · intro b' hb' hlt
        exfalso
        omega
      · intro b' hb' hlt
        exfalso
        omega
    · refine ⟨rfl, rfl, rfl, rfl, ?_, ?_, ?_, fun h => nomatch h⟩
      · intro h
        exact absurd h h1
      · intro b' hb' hlt
        cases hb'
        rfl
      · intro b' hb' hlt
        exfalso
        omega
    · refine ⟨rfl, rfl, rfl, rfl, ?_, ?_, ?_, fun h => nomatch h⟩
      · intro h
        exact absurd h h1
      · intro b' hb' hlt
        exfalso
        omega
      · intro b' hb' hlt
        cases hb'
        exact hbg

/-- C4 witness: the cascade theorem applied to the spec's scenario document
(background "Sky", level "L1", object "Hero", one instance at (32,32)):
deleting background 0 nulls the level's background reference and leaves the
instance list unaffected. -/
theorem C4_witness :
    scenarioDoc.selected_background_index = some 0 ∧
    (delete_background scenarioDoc).levels.length = scenarioDoc.levels.length ∧
    (delete_background scenarioDoc).levels =
      [⟨"L1", 640, 360, none, [⟨32, 32, 0⟩]⟩] :=
  ⟨rfl, (C4_delete_background_cascade scenarioDoc 0 rfl (by decide) (by decide)).1,
   by decide⟩

/-- C6 counterexample: the claim says a failing load leaves the in-memory
document entirely unchanged; loading the well-formed JSON text `{}` fails
(missing "backgrounds" key) yet clears the backgrounds collection, because
`self.backgrounds = []` runs before `data["backgrounds"]` is read. -/
theorem C6_partial_overwrite_counterexample :
    (open_project exDoc (some (Json.obj []))).2 = false ∧
    (open_project exDoc (some (Json.obj []))).1.backgrounds = [] ∧
    exDoc.backgrounds ≠ [] ∧
    (open_project exDoc (some (Json.obj []))).1 ≠ exDoc := by
  decide

/-- C6 as amended: only an input the JSON parser itself rejects is
guaranteed to leave the previously-open document untouched; a failure later
in reconstruction can leave collections already processed overwritten. -/
theorem C6_parse_failure_leaves_untouched (st : GameMakerIDE) :
    open_project st none = (st, false) :=
  rfl

/-- C8 counterexample: the claim says a stored selection index pointing
past the end of its collection is re-defaulted at load completion; loading
`c8json` (one level, stored level selection 7) succeeds and keeps the
out-of-range index 7. -/
theorem C8_stale_selection_counterexample :
    (open_project exDoc (some c8json)).2 = true ∧
    (open_project exDoc (some c8json)).1.selected_level_index = some 7 ∧
    (open_project exDoc (some c8json)).1.levels.length = 1 := by
  decide

/-- C5 counterexample: `rtDoc` has at least one entry per collection and a
placed instance, yet deserializing its serialization yields a different
document - the null background selection is re-defaulted to 0 on load. -/
theorem C5_roundtrip_counterexample :
    rtDoc.backgrounds ≠ [] ∧ rtDoc.sprites ≠ [] ∧ rtDoc.objects ≠ [] ∧
    rtDoc.levels ≠ [] ∧ (∀ lvl ∈ rtDoc.levels, lvl.instances ≠ []) ∧
    (open_project rtDoc (some (save_project rtDoc))).2 = true ∧
    (open_project rtDoc (some (save_project rtDoc))).1 ≠ rtDoc ∧
    (open_project rtDoc (some (save_project rtDoc))).1.selected_background_index = some 0 ∧
    rtDoc.selected_background_index = none := by
  decide

theorem stageSeq_true {r : GameMakerIDE × Bool} {f : GameMakerIDE → GameMakerIDE × Bool}
    {st' : GameMakerIDE} (h : stageSeq r f = (st', true)) :
    r.2 = true ∧ f r.1 = (st', true) := by
  unfold stageSeq at h
  by_cases hr : r.2 = true
  · rw [if_pos hr] at h
    exact ⟨hr, h⟩
  · rw [if_neg hr] at h
    exact absurd (by rw [h]) hr

/-- C8 as amended: at the completion of a successful load, a selection
index stored as null is re-defaulted to 0 exactly when its collection is
non-empty; every other stored value - including one pointing past the end
of its collection, and any value when the collection is empty - is kept
as-is. -/
theorem C8_amended (st : GameMakerIDE) (data : Json) (st' : GameMakerIDE)
    (h : open_project st (some data) = (st', true)) :
    ∃ vl vo vb,
      readSel data "selected_level_index" = some vl ∧
      readSel data "selected_object_index" = some vo ∧
      readSel data "selected_background_index" = some vb ∧
      st'.selected_level_index = (if ¬st'.levels.isEmpty ∧ vl = none then some 0 else vl) ∧
      st'.selected_object_index = (if ¬st'.objects.isEmpty ∧ vo = none then some 0 else vo) ∧
      st'.selected_background_index =
        (if ¬st'.backgrounds.isEmpty ∧ vb = none then some 0 else vb) := by
  unfold open_project at h
  obtain ⟨-, h⟩ := stageSeq_true h
  unfold stageSelections at h
  cases hvl : readSel data "selected_level_index" with
  | none =>
    simp only [hvl] at h
    exact absurd (congrArg Prod.snd h) (by simp)
  | some vl =>
    simp only [hvl] at h
    cases hvo : readSel data "selected_object_index" with
    | none =>
      simp only [hvo] at h
      exact absurd (congrArg Prod.snd h) (by simp)
    | some vo =>
      simp only [hvo] at h
      cases hvb : readSel data "selected_background_index" with
      | none =>
        simp only [hvb] at h
        exact absurd (congrArg Prod.snd h) (by simp)
      | some vb =>
        simp only [hvb] at h
        have hst : st' = _ := (congrArg Prod.fst h).symm
        subst hst
        exact ⟨vl, vo, vb, rfl, rfl, rfl, rfl, rfl, rfl⟩

/-- C8 witness: the amended load rule applied to `c8json` loaded over the
sample document. -/
theorem C8_amended_witness :
    ∃ vl vo vb,
      readSel c8json "selected_level_index" = some vl ∧
      readSel c8json "selected_object_index" = some vo ∧
      readSel c8json "selected_background_index" = some vb ∧
      (open_project exDoc (some c8json)).1.selected_level_index =
        (if ¬(open_project exDoc (some c8json)).1.levels.isEmpty ∧ vl = none
         then some 0 else vl) ∧
      (open_project exDoc (some c8json)).1.selected_object_index =
        (if ¬(open_project exDoc (some c8json)).1.objects.isEmpty ∧ vo = none
         then some 0 else vo) ∧
      (open_project exDoc (some c8json)).1.selected_background_index =
        (if ¬(open_project exDoc (some c8json)).1.backgrounds.isEmpty ∧ vb = none
         then some 0 else vb) :=
  C8_amended exDoc c8json (open_project exDoc (some c8json)).1 (by decide)

theorem find?_reverse_range {p : Nat → Bool} (n : Nat) :
    ∀ i : Nat, ((List.range n).reverse.find? p = some i ↔
      (i < n ∧ p i = true ∧ ∀ j, i < j → j < n → p j = false)) := by
  induction n with
  | zero =>
    intro i
    simp
  | succ n ih =>
    intro i
    rw [List.range_succ, List.reverse_append]
    simp only [List.reverse_singleton, List.singleton_append]
    by_cases hpn : p n = true
    · rw [List.find?_cons_of_pos _ hpn]
      constructor
      · intro h
        injection h with h
        subst h
        exact ⟨Nat.lt_succ_self _, hpn, fun j hj1 hj2 => absurd hj2 (by omega)⟩
      · rintro ⟨hi, hpi, hmax⟩
        by_cases hin : i = n
        · rw [hin]
        · exfalso
          have hc := hmax n (by omega) (by omega)
          rw [hpn] at hc
          cases hc
    · have hpn' : p n = false := by
        cases hpq : p n with
        | false => rfl
        | true => exact absurd hpq hpn
      rw [List.find?_cons_of_neg _ hpn]
      rw [ih i]
      constructor
      · rintro ⟨hi, hpi, hmax⟩
        refine ⟨by omega, hpi, ?_⟩
        intro j hj1 hj2
        by_cases hjn : j = n
        · rw [hjn, hpn']
        · exact hmax j hj1 (by omega)
      · rintro ⟨hi, hpi, hmax⟩
        have hin : i ≠ n := by
          intro hin
          rw [hin, hpn'] at hpi
          cases hpi
        exact ⟨by omega, hpi, fun j hj1 hj2 => hmax j hj1 (by omega)⟩

theorem contains_point_iff (pixSize : Sprite → Option (Int × Int))
    (inst : GameObjectInstance) (px py : Int)
    (objects : List GameObjectType) (sprites : List Sprite)
    (hio : instOk inst.object_index objects.length)
    (hobj : ∀ obj ∈ objects, fkOk obj.sprite_index sprites.length) :
    contains_point pixSize inst px py objects sprites = true ↔
      ∃ obj, objects.get? inst.object_index.toNat = some obj ∧
        ∃ s, obj.sprite_index = some s ∧ 0 ≤ s ∧ s < (sprites.length : Int) ∧
          ∃ sprite, sprites.get? s.toNat = some sprite ∧
            ∃ w h, pixSize sprite = some (w, h) ∧
              inst.x ≤ px ∧ px ≤ inst.x + w ∧ inst.y ≤ py ∧ py ≤ inst.y + h := by
  obtain ⟨h0, hlen⟩ := hio
  have hobjget : pyGet? objects inst.object_index = objects.get? inst.object_index.toNat := by
    unfold pyGet?
    rw [if_pos h0]
  have hlt : inst.object_index.toNat < objects.length := by omega
  obtain ⟨obj, hoget⟩ : ∃ obj, objects.get? inst.object_index.toNat = some obj := by
    rw [List.get?_eq_get hlt]
    exact ⟨_, rfl⟩
  unfold contains_point
  rw [hobjget, hoget]
  have hmem : obj ∈ objects := List.get?_mem hoget
  dsimp only
  cases hsi : obj.sprite_index with
  | none =>
    dsimp only
    simp [hsi]
  | some s =>
    have hfk : 0 ≤ s ∧ s < (sprites.length : Int) := by
      have hx := hobj obj hmem
      rw [hsi] at hx
      exact hx
    obtain ⟨hs0, hslen⟩ := hfk
    dsimp only
    rw [if_neg (by omega : ¬(sprites.length : Int) ≤ s)]
    have hsget : pyGet? sprites s = sprites.get? s.toNat := by
      unfold pyGet?
      rw [if_pos hs0]
    have hslt : s.toNat < sprites.length := by omega
    obtain ⟨sprite, hspget⟩ : ∃ sp, sprites.get? s.toNat = some sp := by
      rw [List.get?_eq_get hslt]
      exact ⟨_, rfl⟩
    rw [hsget, hspget]
    dsimp only
    have hspget2 : sprites[s.toNat]? = some sprite := by
      rw [← List.get?_eq_getElem?]
      exact hspget
    cases hps : pixSize sprite with
    | none =>
      dsimp only
      simp [hsi, hspget2, hps, hs0, hslen]
    | some wh =>
      obtain ⟨w, h⟩ := wh
      dsimp only
      simp [hsi, hspget2, hps, hs0, hslen, and_assoc]

/-- C9: on a level whose foreign keys are all valid, the canvas hit loop
checks instances in reverse placement order and returns exactly the highest
index whose instance satisfies the claim's inclusive-rectangle hit condition
(`HitSpec`, which requires a resolvable sprite); in particular an instance
whose object type has a null or out-of-range sprite reference is never hit,
and of two overlapping instances the later-placed one is returned. -/
theorem C9_hit_test (pixSize : Sprite → Option (Int × Int)) (lvl : Level) (px py : Int)
    (objects : List GameObjectType) (sprites : List Sprite)
    (hinst : ∀ inst ∈ lvl.instances, instOk inst.object_index objects.length)
    (hobj : ∀ obj ∈ objects, fkOk obj.sprite_index sprites.length) :
    ∀ i : Nat, (hitTest pixSize lvl px py objects sprites = some i ↔
      (HitSpec pixSize lvl px py objects sprites i ∧
       ∀ j, i < j → j < lvl.instances.length →
         ¬HitSpec pixSize lvl px py objects sprites j)) := by
  have hbridge : ∀ i : Nat,
      ((match lvl.instances.get? i with
        | some inst => contains_point pixSize inst px py objects sprites
        | none => false) = true) ↔ HitSpec pixSize lvl px py objects sprites i := by
    intro i
    cases hgi : lvl.instances.get? i with
    | none =>
      simp only [Bool.false_eq_true, false_iff]
      intro hs
      obtain ⟨inst, hinst', -⟩ := hs
      rw [hgi] at hinst'
      cases hinst'
    | some inst =>
      rw [contains_point_iff pixSize inst px py objects sprites
        (hinst inst (List.get?_mem hgi)) hobj]
      unfold HitSpec
      constructor
      · intro hc
        exact ⟨inst, hgi, hc⟩
      · rintro ⟨inst', hgi', hc⟩
        rw [hgi] at hgi'
        cases hgi'
        exact hc
  intro i
  unfold hitTest
  rw [find?_reverse_range lvl.instances.length i]
  constructor
  · rintro ⟨hi, hp, hmax⟩
    refine ⟨(hbridge i).mp hp, ?_⟩
    intro j hj1 hj2 hsj
    have hc := hmax j hj1 hj2
    rw [(hbridge j).mpr hsj] at hc
    cases hc
  · rintro ⟨hs, hmax⟩
    have hi : i < lvl.instances.length := by
      obtain ⟨inst, hinst', -⟩ := hs
      obtain ⟨hlt, -⟩ := List.get?_eq_some.mp hinst'
      exact hlt
    refine ⟨hi, (hbridge i).mpr hs, ?_⟩
    intro j hj1 hj2
    cases hpj : (match lvl.instances.get? j with
      | some inst => contains_point pixSize inst px py objects sprites
      | none => false) with
    | false => rfl
    | true => exact absurd ((hbridge j).mp hpj) (hmax j hj1 hj2)

/-- C9 witness: on the concrete two-instance level both instances cover the
point (10,10), and the hit loop returns index 1, the later-placed one; the
characterization theorem applies at that index. -/
theorem C9_witness :
    hitTest pix16 hitLvl 10 10 hitObjects hitSprites = some 1 ∧
    (hitTest pix16 hitLvl 10 10 hitObjects hitSprites = some 1 ↔
      (HitSpec pix16 hitLvl 10 10 hitObjects hitSprites 1 ∧
       ∀ j, 1 < j → j < hitLvl.instances.length →
         ¬HitSpec pix16 hitLvl 10 10 hitObjects hitSprites j)) :=
  ⟨by decide,
   C9_hit_test pix16 hitLvl 10 10 hitObjects hitSprites (by decide) (by decide) 1⟩

theorem sprite_roundtrip (s : Sprite) (h : s.img_bytes ≠ some []) :
    Sprite.from_dict (Sprite.to_dict s) = some s := by
  have hib : readOptBytes ((Sprite.to_dict s).get? "img_bytes") = some s.img_bytes := by
    have hget : (Sprite.to_dict s).get? "img_bytes" = some (bytesToJson s.img_bytes) := rfl
    rw [hget]
    cases hb : s.img_bytes with
    | none => rfl
    | some bs =>
      cases bs with
      | nil => exact absurd hb h
      | cons c cs => rfl
  have hnm : readStr ((Sprite.to_dict s).get? "name") = some s.name := rfl
  have hfmt : readStrD ((Sprite.to_dict s).get? "img_format") "PNG" = some s.img_format := rfl
  unfold Sprite.from_dict
  rw [hib, hnm, hfmt]

theorem background_roundtrip (b : BackgroundResource) (h : b.img_bytes ≠ some []) :
    BackgroundResource.from_dict (BackgroundResource.to_dict b) = some b := by
  have hib : readOptBytes ((BackgroundResource.to_dict b).get? "img_bytes") =
      some b.img_bytes := by
    have hget : (BackgroundResource.to_dict b).get? "img_bytes" =
        some (bytesToJson b.img_bytes) := rfl
    rw [hget]
    cases hb : b.img_bytes with
    | none => rfl
    | some bs =>
      cases bs with
      | nil => exact absurd hb h
      | cons c cs => rfl
  have hcol : readColor ((BackgroundResource.to_dict b).get? "color") = some b.color := rfl
  have hnm : readStr ((BackgroundResource.to_dict b).get? "name") = some b.name := rfl
  have hmode : readStrD ((BackgroundResource.to_dict b).get? "mode") "color" =
      some b.mode := rfl
  have hfmt : readStrD ((BackgroundResource.to_dict b).get? "img_format") "PNG" =
      some b.img_format := rfl
  have htl : readTiled ((BackgroundResource.to_dict b).get? "tiled") = some b.tiled := rfl
  unfold BackgroundResource.from_dict
  rw [hib, hcol, hnm, hmode, hfmt, htl]

theorem object_roundtrip (o : GameObjectType) :
    GameObjectType.fromJson (GameObjectType.toJson o) = some o := by
  have hnm : readStr ((GameObjectType.toJson o).get? "name") = some o.name := rfl
  have hsi : readOptIntReq ((GameObjectType.toJson o).get? "sprite_index") =
      some o.sprite_index := by
    have hget : (GameObjectType.toJson o).get? "sprite_index" =
        some (optIntToJson o.sprite_index) := rfl
    rw [hget]
    cases o.sprite_index <;> rfl
  unfold GameObjectType.fromJson
  rw [hnm, hsi]

theorem loadInstances_roundtrip (objCount : Nat) (l : List GameObjectInstance)
    (h : ∀ inst ∈ l, instOk inst.object_index objCount) :
    loadInstances objCount (l.map GameObjectInstance.toJson) = some l := by
  induction l with
  | nil => rfl
  | cons a l ih =>
    have ha := h a (List.mem_cons_self a l)
    have hrest := ih (fun inst hm => h inst (List.mem_cons_of_mem a hm))
    have hoi : readInt ((GameObjectInstance.toJson a).get? "object_index") =
        some a.object_index := rfl
    have hx : readInt ((GameObjectInstance.toJson a).get? "x") = some a.x := rfl
    have hy : readInt ((GameObjectInstance.toJson a).get? "y") = some a.y := rfl
    have ha2 : 0 ≤ a.object_index ∧ a.object_index < (objCount : Int) := ha
    simp only [List.map_cons, loadInstances]
    rw [hoi]
    dsimp only
    rw [if_pos ha2, hx]
    dsimp only
    rw [hy]
    dsimp only
    rw [hrest]

theorem level_roundtrip (objCount : Nat) (l : Level)
    (h : ∀ inst ∈ l.instances, instOk inst.object_index objCount) :
    Level.fromJson objCount (Level.toJson l) = some l := by
  have hnm : readStr ((Level.toJson l).get? "name") = some l.name := rfl
  have hw : readInt ((Level.toJson l).get? "width") = some l.width := rfl
  have hh : readInt ((Level.toJson l).get? "height") = some l.height := rfl
  have hbg : readOptInt ((Level.toJson l).get? "background_index") =
      some l.background_index := by
    have hget : (Level.toJson l).get? "background_index" =
        some (optIntToJson l.background_index) := rfl
    rw [hget]
    cases l.background_index <;> rfl
  have hinsts : readArr ((Level.toJson l).get? "instances") =
      some (l.instances.map GameObjectInstance.toJson) := rfl
  unfold Level.fromJson
  rw [hnm, hw, hh, hbg, hinsts]
  dsimp only
  rw [loadInstances_roundtrip objCount l.instances h]

theorem loadList_map {α : Type} (f : Json → Option α) (g : α → Json) (l : List α)
    (h : ∀ a ∈ l, f (g a) = some a) : loadList f (l.map g) = (l, true) := by
  induction l with
  | nil => rfl
  | cons a l ih =>
    have hrest := ih (fun b hb => h b (List.mem_cons_of_mem a hb))
    simp only [List.map_cons, loadList]
    rw [h a (List.mem_cons_self a l), hrest]

theorem stageBackgrounds_roundtrip (s0 st : GameMakerIDE)
    (h : ∀ b ∈ st.backgrounds, b.img_bytes ≠ some []) :
    stageBackgrounds s0 (save_project st) = ({ s0 with backgrounds := st.backgrounds }, true) := by
  have h1 : readArr ((save_project st).get? "backgrounds") =
      some (st.backgrounds.map BackgroundResource.to_dict) := rfl
  unfold stageBackgrounds
  rw [h1]
  dsimp only
  rw [loadList_map _ _ _ (fun b hb => background_roundtrip b (h b hb))]

theorem stageSprites_roundtrip (s0 st : GameMakerIDE)
    (h : ∀ s ∈ st.sprites, s.img_bytes ≠ some []) :
    stageSprites s0 (save_project st) = ({ s0 with sprites := st.sprites }, true) := by
  have h1 : readArr ((save_project st).get? "sprites") =
      some (st.sprites.map Sprite.to_dict) := rfl
  unfold stageSprites
  rw [h1]
  dsimp only
  rw [loadList_map _ _ _ (fun s hs => sprite_roundtrip s (h s hs))]

theorem stageObjects_roundtrip (s0 st : GameMakerIDE) :
    stageObjects s0 (save_project st) = ({ s0 with objects := st.objects }, true) := by
  have h1 : readArr ((save_project st).get? "objects") =
      some (st.objects.map GameObjectType.toJson) := rfl
  unfold stageObjects
  rw [h1]
  dsimp only
  rw [loadList_map _ _ _ (fun o _ => object_roundtrip o)]

theorem stageLevels_roundtrip (s0 st : GameMakerIDE)
    (h : ∀ lvl ∈ st.levels, ∀ inst ∈ lvl.instances, instOk inst.object_index s0.objects.length) :
    stageLevels s0 (save_project st) = ({ s0 with levels := st.levels }, true) := by
  have h1 : readArr ((save_project st).get? "levels") =
      some (st.levels.map Level.toJson) := rfl
  unfold stageLevels
  rw [h1]
  dsimp only
  rw [loadList_map _ _ _ (fun lvl hl => level_roundtrip s0.objects.length lvl (h lvl hl))]

theorem stageSelections_roundtrip (s0 st : GameMakerIDE)
    (hl : st.selected_level_index ≠ none)
    (ho : st.selected_object_index ≠ none)
    (hb : st.selected_background_index ≠ none) :
    stageSelections s0 (save_project st) =
      ({ s0 with
         selected_level_index := st.selected_level_index,
         selected_object_index := st.selected_object_index,
         selected_background_index := st.selected_background_index }, true) := by
  have h1 : readSel (save_project st) "selected_level_index" =
      some st.selected_level_index := by
    have hget : (save_project st).get? "selected_level_index" =
        some (optIntToJson st.selected_level_index) := rfl
    unfold readSel
    rw [hget]
    cases st.selected_level_index <;> rfl
  have h2 : readSel (save_project st) "selected_object_index" =
      some st.selected_object_index := by
    have hget : (save_project st).get? "selected_object_index" =
        some (optIntToJson st.selected_object_index) := rfl
    unfold readSel
    rw [hget]
    cases st.selected_object_index <;> rfl
  have h3 : readSel (save_project st) "selected_background_index" =
      some st.selected_background_index := by
    have hget : (save_project st).get? "selected_background_index" =
        some (optIntToJson st.selected_background_index) := rfl
    unfold readSel
    rw [hget]
    cases st.selected_background_index <;> rfl
  unfold stageSelections
  rw [h1, h2, h3]
  dsimp only
  rw [if_neg (show ¬(¬s0.levels.isEmpty ∧ st.selected_level_index = none) from
        fun hc => hl hc.2),
      if_neg (show ¬(¬s0.objects.isEmpty ∧ st.selected_object_index = none) from
        fun hc => ho hc.2),
      if_neg (show ¬(¬s0.backgrounds.isEmpty ∧ st.selected_background_index = none) from
        fun hc => hb hc.2)]

theorem stageSeq_some (s : GameMakerIDE) (f : GameMakerIDE → GameMakerIDE × Bool) :
    stageSeq (s, true) f = f s := by
  unfold stageSeq
  rw [if_pos rfl]

/-- C5 as amended: serializing and re-loading a document reproduces it
exactly - all collections byte-for-byte and field-for-field, and the sprite
selection untouched - provided every placed instance references a valid
object type, every present image payload is non-empty, and the three
persisted selection indices are non-null.  (A null selection index with a
non-empty collection is re-defaulted to 0 on load, a present-but-empty
image payload is saved as null, and an instance with an invalid object
reference is silently dropped, which is why those hypotheses are needed.) -/
theorem C5_roundtrip_amended (st : GameMakerIDE)
    (hinst : ∀ lvl ∈ st.levels, ∀ inst ∈ lvl.instances,
      instOk inst.object_index st.objects.length)
    (hsb : ∀ s ∈ st.sprites, s.img_bytes ≠ some [])
    (hbb : ∀ b ∈ st.backgrounds, b.img_bytes ≠ some [])
    (hl : st.selected_level_index ≠ none)
    (ho : st.selected_object_index ≠ none)
    (hb : st.selected_background_index ≠ none) :
    open_project st (some (save_project st)) = (st, true) := by
  unfold open_project
  dsimp only
  rw [stageBackgrounds_roundtrip st st hbb, stageSeq_some]
  rw [stageSprites_roundtrip _ st hsb, stageSeq_some]
  rw [stageObjects_roundtrip _ st, stageSeq_some]
  rw [stageLevels_roundtrip _ st hinst, stageSeq_some]
  rw [stageSelections_roundtrip _ st hl ho hb]

/-- C5 witness: the amended round-trip theorem applied to the concrete
document `rtGoodDoc` (one background, one sprite with a payload, one object
type, one level with one instance, all selections non-null). -/
theorem C5_amended_witness :
    open_project rtGoodDoc (some (save_project rtGoodDoc)) = (rtGoodDoc, true) :=
  C5_roundtrip_amended rtGoodDoc (by decide) (by decide) (by decide)
    (by decide) (by decide) (by decide)

theorem fkOk_mono {o : Option Int} {n m : Nat} (h : fkOk o n) (hnm : n ≤ m) :
    fkOk o m := by
  cases o with
  | none => exact trivial
  | some k =>
    have h2 : 0 ≤ k ∧ k < (n : Int) := h
    exact ⟨h2.1, by omega⟩

theorem instOk_mono {i : Int} {n m : Nat} (h : instOk i n) (hnm : n ≤ m) :
    instOk i m := by
  have h2 : 0 ≤ i ∧ i < (n : Int) := h
  exact ⟨h2.1, by omega⟩

theorem length_modifyAt (l : List α) (n : Nat) (f : α → α) :
    (modifyAt l n f).length = l.length := by
  induction l generalizing n with
  | nil => rfl
  | cons a l ih =>
    cases n with
    | zero => rfl
    | succ m => simp only [modifyAt, List.length_cons, ih]

theorem mem_modifyAt {l : List α} {n : Nat} {f : α → α} {x : α}
    (h : x ∈ modifyAt l n f) : x ∈ l ∨ ∃ y, y ∈ l ∧ x = f y := by
  induction l generalizing n with
  | nil => simp [modifyAt] at h
  | cons a l ih =>
    cases n with
    | zero =>
      simp only [modifyAt] at h
      rcases List.mem_cons.mp h with h1 | h1
      · exact Or.inr ⟨a, List.mem_cons_self a l, h1⟩
      · exact Or.inl (List.mem_cons_of_mem a h1)
    | succ m =>
      simp only [modifyAt] at h
      rcases List.mem_cons.mp h with h1 | h1
      · subst h1
        exact Or.inl (List.mem_cons_self _ _)
      · rcases ih h1 with h2 | ⟨y, hy, hxy⟩
        · exact Or.inl (List.mem_cons_of_mem a h2)
        · exact Or.inr ⟨y, List.mem_cons_of_mem a hy, hxy⟩

theorem mem_of_mem_eraseIdx' {l : List α} {n : Nat} {x : α}
    (h : x ∈ l.eraseIdx n) : x ∈ l := by
  induction l generalizing n with
  | nil => simp [List.eraseIdx] at h
  | cons a l ih =>
    cases n with
    | zero => exact List.mem_cons_of_mem a h
    | succ m =>
      simp only [List.eraseIdx] at h
      rcases List.mem_cons.mp h with h1 | h1
      · subst h1
        exact List.mem_cons_self _ _
      · exact List.mem_cons_of_mem a (ih h1)

theorem length_eraseIdx_lt {l : List α} {n : Nat} (h : n < l.length) :
    (l.eraseIdx n).length = l.length - 1 := by
  induction l generalizing n with
  | nil => simp at h
  | cons a l ih =>
    cases n with
    | zero => simp [List.eraseIdx]
    | succ m =>
      have hm : m < l.length := by simpa using h
      simp only [List.eraseIdx, List.length_cons, ih hm]
      omega

theorem bgCascade_instances (idx : Int) (lvl : Level) :
    (bgCascade idx lvl).instances = lvl.instances := by
  unfold bgCascade
  cases lvl.background_index with
  | none => rfl
  | some b =>
    dsimp only
    split_ifs <;> rfl

theorem bgCascade_fkOk {idx : Int} {n : Nat} (lvl : Level)
    (h : fkOk lvl.background_index n) (h0 : 0 ≤ idx) (hn : idx < (n : Int)) :
    fkOk (bgCascade idx lvl).background_index (n - 1) := by
  unfold bgCascade
  cases hbg : lvl.background_index with
  | none =>
    dsimp only
    rw [hbg]
    exact trivial
  | some b =>
    rw [hbg] at h
    have hb : 0 ≤ b ∧ b < (n : Int) := h
    dsimp only
    split_ifs with h1 h2
    · exact trivial
    · show 0 ≤ b - 1 ∧ b - 1 < ((n - 1 : Nat) : Int)
      omega
    · show fkOk lvl.background_index (n - 1)
      rw [hbg]
      show 0 ≤ b ∧ b < ((n - 1 : Nat) : Int)
      omega

theorem spriteCascade_fkOk {idx : Int} {n : Nat} (obj : GameObjectType)
    (h : fkOk obj.sprite_index n) (h0 : 0 ≤ idx) (hn : idx < (n : Int)) :
    fkOk (spriteCascade idx obj).sprite_index (n - 1) := by
  unfold spriteCascade
  cases hsi : obj.sprite_index with
  | none =>
    dsimp only
    rw [hsi]
    exact trivial
  | some s =>
    rw [hsi] at h
    have hs : 0 ≤ s ∧ s < (n : Int) := h
    dsimp only
    split_ifs with h1 h2
    · exact trivial
    · show 0 ≤ s - 1 ∧ s - 1 < ((n - 1 : Nat) : Int)
      omega
    · show fkOk obj.sprite_index (n - 1)
      rw [hsi]
      show 0 ≤ s ∧ s < ((n - 1 : Nat) : Int)
      omega

theorem objCascade_instOk {idx : Int} {n : Nat} (lvl : Level)
    (inst' : GameObjectInstance)
    (hmem : inst' ∈ (objCascade idx lvl).instances)
    (h : ∀ inst ∈ lvl.instances, instOk inst.object_index n)
    (h0 : 0 ≤ idx) (hn : idx < (n : Int)) :
    instOk inst'.object_index (n - 1) := by
  unfold objCascade at hmem
  dsimp only at hmem
  obtain ⟨inst0, hin0, rfl⟩ := List.mem_map.mp hmem
  have hin1 := List.mem_of_mem_filter hin0
  have hne : inst0.object_index ≠ idx := by
    have hp := List.of_mem_filter hin0
    simpa using hp
  have hok : 0 ≤ inst0.object_index ∧ inst0.object_index < (n : Int) := h inst0 hin1
  by_cases hgt : inst0.object_index > idx
  · rw [if_pos hgt]
    show 0 ≤ inst0.object_index - 1 ∧ inst0.object_index - 1 < ((n - 1 : Nat) : Int)
    omega
  · rw [if_neg hgt]
    show 0 ≤ inst0.object_index ∧ inst0.object_index < ((n - 1 : Nat) : Int)
    omega

theorem step_preserves (st : GameMakerIDE) (op : Op) (h : docValid st) :
    docValid (step st op) := by
  obtain ⟨hobjs, hbgs, hinsts⟩ := h
  cases op with
  | addBackground nm mode col ib fmt tl =>
    refine ⟨hobjs, ?_, hinsts⟩
    intro lvl hm
    refine fkOk_mono (hbgs lvl hm) ?_
    simp [step, add_background]
  | addSprite nm ib fmt =>
    refine ⟨?_, hbgs, hinsts⟩
    intro obj hm
    refine fkOk_mono (hobjs obj hm) ?_
    simp [step, add_sprite]
  | addObject nm =>
    show docValid (add_object st nm)
    unfold add_object
    by_cases hbl : strBlank nm = true
    · rw [if_pos hbl]
      exact ⟨hobjs, hbgs, hinsts⟩
    · rw [if_neg hbl]
      refine ⟨?_, hbgs, ?_⟩
      · intro obj hm
        rcases List.mem_append.mp hm with h1 | h1
        · exact hobjs obj h1
        · rcases List.mem_singleton.mp h1 with rfl
          exact trivial
      · intro lvl hml inst hmi
        refine instOk_mono (hinsts lvl hml inst hmi) ?_
        simp
  | addLevel nm =>
    show docValid (add_level st nm)
    unfold add_level
    by_cases hbl : strBlank nm = true
    · rw [if_pos hbl]
      exact ⟨hobjs, hbgs, hinsts⟩
    · rw [if_neg hbl]
      refine ⟨hobjs, ?_, ?_⟩
      · intro lvl hm
        rcases List.mem_append.mp hm with h1 | h1
        · exact hbgs lvl h1
        · rcases List.mem_singleton.mp h1 with rfl
          show fkOk (if st.backgrounds.isEmpty then none else some 0) st.backgrounds.length
          by_cases hbe : st.backgrounds.isEmpty = true
          · rw [if_pos hbe]
            exact trivial
          · rw [if_neg hbe]
            have hpos : 0 < st.backgrounds.length := by
              cases hx : st.backgrounds with
              | nil => rw [hx] at hbe; exact absurd rfl hbe
              | cons b bs => simp [hx]
            exact ⟨le_refl 0, by omega⟩
      · intro lvl hml inst hmi
        rcases List.mem_append.mp hml with h1 | h1
        · exact hinsts lvl h1 inst hmi
        · rcases List.mem_singleton.mp h1 with rfl
          simp at hmi
  | renameBackground nm =>
    show docValid (rename_background st nm)
    unfold rename_background
    cases hsel : st.selected_background_index with
    | none => exact ⟨hobjs, hbgs, hinsts⟩
    | some idx =>
      dsimp only
      by_cases hg : 0 ≤ idx ∧ idx < (st.backgrounds.length : Int)
      · rw [if_pos hg]
        by_cases hbl : strBlank nm = true
        · rw [if_pos hbl]
          exact ⟨hobjs, hbgs, hinsts⟩
        · rw [if_neg hbl]
          refine ⟨hobjs, ?_, hinsts⟩
          intro lvl hm
          rw [length_modifyAt]
          exact hbgs lvl hm
      · rw [if_neg hg]
        exact ⟨hobjs, hbgs, hinsts⟩
  | renameSprite nm =>
    show docValid (rename_sprite st nm)
    unfold rename_sprite
    cases hsel : st.selected_sprite_index with
    | none => exact ⟨hobjs, hbgs, hinsts⟩
    | some idx =>
      dsimp only
      by_cases hg : 0 ≤ idx ∧ idx < (st.sprites.length : Int)
      · rw [if_pos hg]
        by_cases hbl : strBlank nm = true
        · rw [if_pos hbl]
          exact ⟨hobjs, hbgs, hinsts⟩
        · rw [if_neg hbl]
          refine ⟨?_, hbgs, hinsts⟩
          intro obj hm
          rw [length_modifyAt]
          exact hobjs obj hm
      · rw [if_neg hg]
        exact ⟨hobjs, hbgs, hinsts⟩
  | renameObject nm =>
    show docValid (rename_object st nm)
    unfold rename_object
    cases hsel : st.selected_object_index with
    | none => exact ⟨hobjs, hbgs, hinsts⟩
    | some idx =>
      dsimp only
      by_cases hg : 0 ≤ idx ∧ idx < (st.objects.length : Int)
      · rw [if_pos hg]
        by_cases hbl : strBlank nm = true
        · rw [if_pos hbl]
          exact ⟨hobjs, hbgs, hinsts⟩
        · rw [if_neg hbl]
          refine ⟨?_, hbgs, ?_⟩
          · intro obj hm
            rcases mem_modifyAt hm with h1 | ⟨y, hy, rfl⟩
            · exact hobjs obj h1
            · exact hobjs y hy
          · intro lvl hml inst hmi
            rw [length_modifyAt]
            exact hinsts lvl hml inst hmi
      · rw [if_neg hg]
        exact ⟨hobjs, hbgs, hinsts⟩
  | renameLevel nm =>
    show docValid (rename_level st nm)
    unfold rename_level
    cases hsel : st.selected_level_index with
    | none => exact ⟨hobjs, hbgs, hinsts⟩
    | some idx =>
      dsimp only
      by_cases hg : 0 ≤ idx ∧ idx < (st.levels.length : Int)
      · rw [if_pos hg]
        by_cases hbl : strBlank nm = true
        · rw [if_pos hbl]
          exact ⟨hobjs, hbgs, hinsts⟩
        · rw [if_neg hbl]
          refine ⟨hobjs, ?_, ?_⟩
          · intro lvl hm
            rcases mem_modifyAt hm with h1 | ⟨y, hy, rfl⟩
            · exact hbgs lvl h1
            · exact hbgs y hy
          · intro lvl hml inst hmi
            rcases mem_modifyAt hml with h1 | ⟨y, hy, rfl⟩
            · exact hinsts lvl h1 inst hmi
            · exact hinsts y hy inst hmi
      · rw [if_neg hg]
        exact ⟨hobjs, hbgs, hinsts⟩
  | deleteBackground =>
    show docValid (delete_background st)
    unfold delete_background
    cases hsel : st.selected_background_index with
    | none => exact ⟨hobjs, hbgs, hinsts⟩
    | some idx =>
      dsimp only
      by_cases hg : 0 ≤ idx ∧ idx < (st.backgrounds.length : Int)
      · obtain ⟨h0, hn⟩ := hg
        rw [if_pos ⟨h0, hn⟩]
        have hlenE : (st.backgrounds.eraseIdx idx.toNat).length =
            st.backgrounds.length - 1 := length_eraseIdx_lt (by omega)
        refine ⟨hobjs, ?_, ?_⟩
        · intro lvl' hm
          obtain ⟨lvl, hlvl, rfl⟩ := List.mem_map.mp hm
          rw [hlenE]
          exact bgCascade_fkOk lvl (hbgs lvl hlvl) h0 hn
        · intro lvl' hm inst hmi
          obtain ⟨lvl, hlvl, rfl⟩ := List.mem_map.mp hm
          rw [bgCascade_instances] at hmi
          exact hinsts lvl hlvl inst hmi
      · rw [if_neg hg]
        exact ⟨hobjs, hbgs, hinsts⟩
  | deleteSprite =>
    show docValid (delete_sprite st)
    unfold delete_sprite
    cases hsel : st.selected_sprite_index with
    | none => exact ⟨hobjs, hbgs, hinsts⟩
    | some idx =>
      dsimp only
      by_cases hg : 0 ≤ idx ∧ idx < (st.sprites.length : Int)
      · obtain ⟨h0, hn⟩ := hg
        rw [if_pos ⟨h0, hn⟩]
        have hlenE : (st.sprites.eraseIdx idx.toNat).length =
            st.sprites.length - 1 := length_eraseIdx_lt (by omega)
        refine ⟨?_, hbgs, ?_⟩
        · intro obj' hm
          obtain ⟨obj, hobj, rfl⟩ := List.mem_map.mp hm
          rw [hlenE]
          exact spriteCascade_fkOk obj (hobjs obj hobj) h0 hn
        · intro lvl hml inst hmi
          rw [List.length_map]
          exact hinsts lvl hml inst hmi
      · rw [if_neg hg]
        exact ⟨hobjs, hbgs, hinsts⟩
  | deleteObject =>
    show docValid (delete_object st)
    unfold delete_object
    cases hsel : st.selected_object_index with
    | none => exact ⟨hobjs, hbgs, hinsts⟩
    | some idx =>
      dsimp only
      by_cases hg : 0 ≤ idx ∧ idx < (st.objects.length : Int)
      · obtain ⟨h0, hn⟩ := hg
        rw [if_pos ⟨h0, hn⟩]
        have hlenE : (st.objects.eraseIdx idx.toNat).length =
            st.objects.length - 1 := length_eraseIdx_lt (by omega)
        refine ⟨?_, ?_, ?_⟩
        · intro obj hm
          exact hobjs obj (mem_of_mem_eraseIdx' hm)
        · intro lvl' hm
          obtain ⟨lvl, hlvl, rfl⟩ := List.mem_map.mp hm
          exact hbgs lvl hlvl
        · intro lvl' hm inst hmi
          obtain ⟨lvl, hlvl, rfl⟩ := List.mem_map.mp hm
          rw [hlenE]
          exact objCascade_instOk lvl inst hmi (hinsts lvl hlvl) h0 hn
      · rw [if_neg hg]
        exact ⟨hobjs, hbgs, hinsts⟩
  | deleteLevel =>
    show docValid (delete_level st)
    unfold delete_level
    cases hsel : st.selected_level_index with
    | none => exact ⟨hobjs, hbgs, hinsts⟩
    | some idx =>
      dsimp only
      by_cases hg : 0 ≤ idx ∧ idx < (st.levels.length : Int)
      · rw [if_pos hg]
        refine ⟨hobjs, ?_, ?_⟩
        · intro lvl hm
          exact hbgs lvl (mem_of_mem_eraseIdx' hm)
        · intro lvl hml inst hmi
          exact hinsts lvl (mem_of_mem_eraseIdx' hml) inst hmi
      · rw [if_neg hg]
        exact ⟨hobjs, hbgs, hinsts⟩
  | selectBackground row => exact ⟨hobjs, hbgs, hinsts⟩
  | selectSprite row => exact ⟨hobjs, hbgs, hinsts⟩
  | selectObject row => exact ⟨hobjs, hbgs, hinsts⟩
  | selectLevel row => exact ⟨hobjs, hbgs, hinsts⟩

/-- C1: referential integrity is an invariant of the editor's action
language - starting from a document whose foreign keys are all valid or
null, after every sequence of add, remove, rename (and select) actions
every non-null foreign key still resolves to a valid index in its target
collection; since every prefix of a sequence is a sequence, the invariant
holds after each single action completes. -/
theorem C1_referential_integrity (st : GameMakerIDE) (h : docValid st)
    (ops : List Op) : docValid (applyOps st ops) := by
  induction ops generalizing st with
  | nil => exact h
  | cons op ops ih => exact ih (step st op) (step_preserves st op h)

/-- C1 witness: the sample document is valid and stays valid through a
concrete action sequence exercising each delete cascade. -/
theorem C1_witness : docValid (applyOps exDoc ops0) :=
  C1_referential_integrity exDoc (by decide) ops0

end GM
